import Mathlib

/-!
# Annotation checker (`gen/check_annotations.go`)

A shallow embedding of the build-time checker that validates the scope/access
annotation of every method of an RPC service against the compiled server
interface, followed by theorems about it.

Conventions of the embedding.

* A Go `error` value is `Option String`: `none` is `nil`, `some msg` is an
  error whose text is `msg` (every error built by this program comes from
  `fmt.Errorf` with a single `%s` verb).
* A Go function that may panic returns `Except Panic _`: `.error p` is a run
  that panicked, `.ok v` a run that returned `v`.
* The `reflect` and `proto` libraries are not part of the repository; the
  fragments the program calls are modelled after their documented behaviour.
-/

/-! ## Run-time panics -/

/-- Panics that the operations used by the checker can raise. -/
inductive Panic where
  /-- Raised by `reflect.Type.Elem` on a kind other than Array, Chan, Map, Pointer, Slice. -/
  | ElemOfInvalidType
  /-- Raised by `reflect.Type.FieldByName` on a kind other than Struct. -/
  | FieldByNameOfNonStruct
  /-- Raised by `reflect.Type.In` with an index outside the parameter list. -/
  | IndexOutOfRange
  /-- Raised by dereferencing a nil pointer (`*service.Name`, `*method.Name`). -/
  | NilDereference
  deriving DecidableEq, Repr

/-! ## The fragment of `reflect` used by the checker -/

namespace reflect

/-- The run-time type descriptor `reflect.Type`, by kind.

`Struct fields` lists the field names that `FieldByName` resolves on the
struct.  `Interface methods` lists the interface's methods, each with the
parameter types of its signature; for an interface type the signature carries
no receiver.  `Other` stands for the remaining kinds (Bool, the numeric kinds,
String, Func, UnsafePointer), which have neither an element type nor fields.
Method sets of non-interface types are not modelled: the driver only passes
interface types. -/
inductive RType where
  | Array (elem : RType)
  | Chan (elem : RType)
  | Map (elem : RType)
  | Pointer (elem : RType)
  | Slice (elem : RType)
  | Struct (fields : List String)
  | Interface (methods : List (String × List RType))
  | Other (kind : String)

/-- The type of a method as `reflect.Method.Type` reports it: a Func type,
of which the checker reads the parameter list only. -/
structure FuncType where
  ins : List RType

/-- The record `reflect.Method`, of which the checker reads the field `Type`
only (named `Typ` here, `Type` being reserved). -/
structure Method where
  Name : String
  Typ : FuncType

/-- The call `t.NumIn()` on a method type. -/
def FuncType.NumIn (t : FuncType) : Nat := t.ins.length

/-- The call `t.In(i)` on a method type; panics when `i` is out of range. -/
def FuncType.In (t : FuncType) (i : Nat) : Except Panic RType :=
  match t.ins.get? i with
  | some p => .ok p
  | none => .error Panic.IndexOutOfRange

/-- The call `t.Elem()`: the element type of an Array, Chan, Map, Pointer or
Slice; panics on every other kind. -/
def RType.Elem : RType → Except Panic RType
  | .Array e => .ok e
  | .Chan e => .ok e
  | .Map e => .ok e
  | .Pointer e => .ok e
  | .Slice e => .ok e
  | _ => .error Panic.ElemOfInvalidType

/-- The call `t.FieldByName(name)`, reduced to its boolean result (the
program discards the `StructField`); panics when `t` is not a Struct. -/
def RType.FieldByName : RType → String → Except Panic Bool
  | .Struct fields, name => .ok (fields.contains name)
  | _, _ => .error Panic.FieldByNameOfNonStruct

/-- The call `t.MethodByName(name)`: exact, case-sensitive lookup among the
methods of an interface type.  `none` is the `ok = false` result. -/
def RType.MethodByName : RType → String → Option Method
  | .Interface methods, name =>
    match methods.find? (fun m => m.1 == name) with
    | some m => some { Name := m.1, Typ := { ins := m.2 } }
    | none => none
  | _, _ => none

end reflect

/-! ## The annotation message (`annpb`) -/

namespace annpb

/-- The message `annpb.Method`: two proto3 enum fields, which Go represents
as open `int32` values. -/
structure Method where
  Scope : Int
  Access : Int
  deriving DecidableEq, Repr

/-- Modelled from the spec: the enum declarations of package `annpb` are not
under `src/`.  The spec lists `Scope ∈ {UNSPECIFIED, CLUSTER, NAMESPACE}`; the
numbers follow the declaration order, the zero value being UNSPECIFIED. -/
def SCOPE_UNSPECIFIED : Int := 0

/-- Modelled from the spec: see `SCOPE_UNSPECIFIED`. -/
def SCOPE_CLUSTER : Int := 1

/-- Modelled from the spec: see `SCOPE_UNSPECIFIED`. -/
def SCOPE_NAMESPACE : Int := 2

/-- Modelled from the spec: the zero value of the `Access` enum; the defined
access levels are the non-zero values. -/
def ACCESS_UNSPECIFIED : Int := 0

end annpb

/-! ## The validator -/

/-- The function `validateAnnotation` of `check_annotations.go` (lines 77-106). -/
def validateAnnotation (serverType : reflect.RType) (name : String)
    (ann : Option annpb.Method) : Except Panic (Option String) :=
  match ann with
  | none => .ok (some ("annotation for " ++ name ++ " missing"))
  | some ann =>
    if ann.Scope = annpb.SCOPE_UNSPECIFIED then
      .ok (some ("scope annotation for " ++ name ++ " missing"))
    else if ann.Access = annpb.ACCESS_UNSPECIFIED then
      .ok (some ("access annotation for " ++ name ++ " missing"))
    else
      -- check namespace/scope consistency
      match serverType.MethodByName name with
      | none => .ok (some ("can't find method " ++ name ++ " in server type"))
      | some refMethod =>
        if refMethod.Typ.NumIn ≥ 2 then
          -- regular method (not streaming)
          match refMethod.Typ.In 1 with
          | .error p => .error p
          | .ok in1 =>
            match in1.Elem with
            | .error p => .error p
            | .ok reqType =>
              match reqType.FieldByName "Namespace" with
              | .error p => .error p
              | .ok hasNamespace =>
                if ann.Scope = annpb.SCOPE_CLUSTER ∧ hasNamespace = true then
                  .ok (some ("found Namespace field in request for SCOPE_CLUSTER method " ++ name))
                else if ann.Scope = annpb.SCOPE_NAMESPACE ∧ hasNamespace = false then
                  .ok (some ("didn't find Namespace field in request for SCOPE_NAMESPACE method "
                    ++ name))
                else
                  .ok none
        else
          .ok none

/-! ## The descriptor messages and the libraries behind the loader -/

namespace descriptor

/-- The message `descriptor.MethodOptions`, reduced to what the checker reads
from it: the value the extension `annpb.E_Method` decodes to, when the
extension is set and decodes. -/
structure MethodOptions where
  E_Method : Option annpb.Method

/-- The message `descriptor.MethodDescriptorProto`: `Name` is a `*string`,
`Options` a `*MethodOptions`; `none` is the nil pointer. -/
structure MethodDescriptorProto where
  Name : Option String
  Options : Option MethodOptions

/-- The message `descriptor.ServiceDescriptorProto`: `Name` is a `*string`. -/
structure ServiceDescriptorProto where
  Name : Option String
  Method : List MethodDescriptorProto

/-- The message `descriptor.FileDescriptorProto`, of which the checker reads
the service list only. -/
structure FileDescriptorProto where
  Service : List ServiceDescriptorProto

end descriptor

namespace proto

/-- The call `proto.GetExtension(options, annpb.E_Method)`: the decoded
extension and an error.  A nil options pointer, an unset extension and an
extension that fails to decode all give a nil value with an error. -/
def GetExtension (pb : Option descriptor.MethodOptions) : Option annpb.Method × Option String :=
  match pb with
  | none => (none, some "proto: not an extendable proto.Message")
  | some options =>
    match options.E_Method with
    | none => (none, some "proto: missing extension")
    | some v => (some v, none)

end proto

/-- The library functions behind the descriptor loader, taken as parameters:
the registry of compiled-in descriptors (`proto.FileDescriptor`), the gzip
reader over a byte blob (`gzip.NewReader`, `io.ReadAll`, `Close`, each given
the blob the reader was opened on) and `proto.Unmarshal`. -/
structure Libs where
  FileDescriptor : String → List UInt8
  NewReader : List UInt8 → Option String
  ReadAll : List UInt8 → List UInt8 × Option String
  Close : List UInt8 → Option String
  Unmarshal : List UInt8 → Except String descriptor.FileDescriptorProto

/-- Dereference of a `*string` (`*service.Name`, `*method.Name`); panics on
the nil pointer. -/
def deref (p : Option String) : Except Panic String :=
  match p with
  | some s => .ok s
  | none => .error Panic.NilDereference

/-! ## The checker -/

/-- Lines 44-58 of `checkAnnotations`: fetch the compressed descriptor, open
the gzip reader, read it whole, close it, unmarshal.  The first error ends the
load. -/
def loadDescriptor (lib : Libs) (protoFile : String) :
    Except String descriptor.FileDescriptorProto :=
  let blob := lib.FileDescriptor protoFile
  match lib.NewReader blob with
  | some err => .error err
  | none =>
    match lib.ReadAll blob with
    | (_, some err) => .error err
    | (buf, none) =>
      match lib.Close blob with
      | some err => .error err
      | none => lib.Unmarshal buf

/-- The inner loop of `checkAnnotations` (lines 64-71) over the methods of one
service. -/
def methodLoop (serverType : reflect.RType) :
    List descriptor.MethodDescriptorProto → Except Panic (Option String)
  | [] => .ok none
  | method :: rest =>
    match deref method.Name with
    | .error p => .error p
    | .ok name =>
      let v := (proto.GetExtension method.Options).1
      let ann : Option annpb.Method := v
      match validateAnnotation serverType name ann with
      | .error p => .error p
      | .ok (some err) => .ok (some err)
      | .ok none => methodLoop serverType rest

/-- The outer loop of `checkAnnotations` (lines 60-72) over the services of
the file. -/
def serviceLoop (serverType : reflect.RType) (serviceName : String) :
    List descriptor.ServiceDescriptorProto → Except Panic (Option String)
  | [] => .ok none
  | service :: rest =>
    match deref service.Name with
    | .error p => .error p
    | .ok sname =>
      if sname ≠ serviceName then
        serviceLoop serverType serviceName rest
      else
        match methodLoop serverType service.Method with
        | .error p => .error p
        | .ok (some err) => .ok (some err)
        | .ok none => serviceLoop serverType serviceName rest

/-- The function `checkAnnotations` of `check_annotations.go` (lines 43-75). -/
def checkAnnotations (lib : Libs) (protoFile serviceName : String)
    (serverType : reflect.RType) : Except Panic (Option String) :=
  match loadDescriptor lib protoFile with
  | .error err => .ok (some err)
  | .ok d => serviceLoop serverType serviceName d.Service

/-! ## The checker with a log of its calls to the validator -/

/-- One call `validateAnnotation(serverType, name, ann)` made by the checker:
the name and the annotation-or-absent passed (the server type is the same in
every call of a run). -/
abbrev Call := String × Option annpb.Method

/-- The inner loop of `checkAnnotations` (lines 64-71), as `methodLoop`, with
the list of the calls made to the validator, in the order made. -/
def methodLoopCalls (serverType : reflect.RType) :
    List descriptor.MethodDescriptorProto → List Call × Except Panic (Option String)
  | [] => ([], .ok none)
  | method :: rest =>
    match deref method.Name with
    | .error p => ([], .error p)
    | .ok name =>
      let v := (proto.GetExtension method.Options).1
      let ann : Option annpb.Method := v
      match validateAnnotation serverType name ann with
      | .error p => ([(name, ann)], .error p)
      | .ok (some err) => ([(name, ann)], .ok (some err))
      | .ok none =>
        let r := methodLoopCalls serverType rest
        ((name, ann) :: r.1, r.2)

/-- The outer loop of `checkAnnotations` (lines 60-72), as `serviceLoop`, with
the list of the calls made to the validator. -/
def serviceLoopCalls (serverType : reflect.RType) (serviceName : String) :
    List descriptor.ServiceDescriptorProto → List Call × Except Panic (Option String)
  | [] => ([], .ok none)
  | service :: rest =>
    match deref service.Name with
    | .error p => ([], .error p)
    | .ok sname =>
      if sname ≠ serviceName then
        serviceLoopCalls serverType serviceName rest
      else
        match methodLoopCalls serverType service.Method with
        | (calls, .error p) => (calls, .error p)
        | (calls, .ok (some err)) => (calls, .ok (some err))
        | (calls, .ok none) =>
          let r := serviceLoopCalls serverType serviceName rest
          (calls ++ r.1, r.2)

/-- The function `checkAnnotations` (lines 43-75), as `checkAnnotations`
above, with the list of the calls made to the validator. -/
def checkAnnotationsCalls (lib : Libs) (protoFile serviceName : String)
    (serverType : reflect.RType) : List Call × Except Panic (Option String) :=
  match loadDescriptor lib protoFile with
  | .error err => ([], .ok (some err))
  | .ok d => serviceLoopCalls serverType serviceName d.Service

/-- The arguments of the validator call for a method entry, when the entry has
a name: its name and the annotation read from its options. -/
def callOf (x : descriptor.MethodDescriptorProto) : Option Call :=
  match x.Name with
  | some n => some (n, (proto.GetExtension x.Options).1)
  | none => none

/-- The services of a file whose name is exactly `serviceName`, in file
order. -/
def targetServices (d : descriptor.FileDescriptorProto) (serviceName : String) :
    List descriptor.ServiceDescriptorProto :=
  d.Service.filter (fun s => s.Name == some serviceName)

/-- The method entries of the services named `serviceName`, in declaration
order. -/
def targetMethods (d : descriptor.FileDescriptorProto) (serviceName : String) :
    List descriptor.MethodDescriptorProto :=
  (targetServices d serviceName).flatMap (fun s => s.Method)

/-- The calls the declaration of the services named `serviceName` asks for:
one per method entry, in declaration order. -/
def declaredCalls (d : descriptor.FileDescriptorProto) (serviceName : String) : List Call :=
  (targetMethods d serviceName).filterMap callOf

/-- The log `calls`, ending with result `res`, runs through `declared` in
order and stops at the first failure: it is an initial segment of `declared`;
when the result is no error it is all of `declared` and every call returned no
error; when the result is the error `e` its last call is the one that returned
`e` and every call before it returned no error. -/
def InOrderUntilFailure (serverType : reflect.RType) (declared calls : List Call)
    (res : Except Panic (Option String)) : Prop :=
  calls <+: declared ∧
  (res = .ok none →
    calls = declared ∧ ∀ c ∈ calls, validateAnnotation serverType c.1 c.2 = .ok none) ∧
  (∀ e, res = .ok (some e) →
    ∃ init c, calls = init ++ [c] ∧ validateAnnotation serverType c.1 c.2 = .ok (some e) ∧
      ∀ b ∈ init, validateAnnotation serverType b.1 b.2 = .ok none)

/-! ## The driver -/

/-- What a run of `main` leaves behind: the services whose pass was started,
in order (a log kept by the model), the lines printed on standard output, and
the exit status. -/
structure Exit where
  started : List String
  stdout : List String
  status : Nat
  deriving DecidableEq, Repr

/-- The function `main` of `check_annotations.go` (lines 108-127).  The two
server interface types, `reflect.TypeOf((*T)(nil)).Elem()` for the generated
interfaces `WorkflowServiceServer` and `OperatorServiceServer`, are parameters:
the generated packages are not part of the repository.  `fmt.Println(err)`
prints the error text as one line; `os.Exit(1)` ends the run with status 1;
falling off the end of `main` ends it with status 0.  (Named `gen.main`, after
the directory of the program: a top-level `main` is reserved.) -/
def gen.main (lib : Libs) (workflowServiceServer operatorServiceServer : reflect.RType) :
    Except Panic Exit :=
  match checkAnnotations lib "temporal/api/workflowservice/v1/service.proto"
      "WorkflowService" workflowServiceServer with
  | .error p => .error p
  | .ok (some err) => .ok { started := ["WorkflowService"], stdout := [err], status := 1 }
  | .ok none =>
    match checkAnnotations lib "temporal/api/operatorservice/v1/service.proto"
        "OperatorService" operatorServiceServer with
    | .error p => .error p
    | .ok (some err) =>
      .ok { started := ["WorkflowService", "OperatorService"], stdout := [err], status := 1 }
    | .ok none =>
      .ok { started := ["WorkflowService", "OperatorService"], stdout := [], status := 0 }

/-! ## The precondition on parameter types -/

/-- A parameter list is well shaped when it has fewer than two parameters or
its second parameter is a pointer to a struct. -/
def wellShaped : List reflect.RType → Bool
  | [] => true
  | [_] => true
  | _ :: .Pointer (.Struct _) :: _ => true
  | _ :: _ :: _ => false

/-- Every method of the server type with two or more parameters has a
pointer-to-struct as its second parameter. -/
def unaryWellFormed : reflect.RType → Bool
  | .Interface methods => methods.all (fun m => wellShaped m.2)
  | _ => true

/-! ## Rule 5 in the words of the specification -/

/-- Rule 5 of the validator as the specification words it, with the two
numbers it depends on left open: the rule applies to a method taking at least
`minArgs` arguments and inspects the element type of the argument at position
`idx` for a field named "Namespace".  The specification's wording ("at least
one argument", "its first argument") is `shapeRule 1 0`. -/
def shapeRule (minArgs idx : Nat) (m : reflect.Method) (scope : Int) (name : String) :
    Except Panic (Option String) :=
  if m.Typ.ins.length < minArgs then .ok none
  else
    match m.Typ.ins.get? idx with
    | none => .error Panic.IndexOutOfRange
    | some arg =>
      match arg.Elem with
      | .error p => .error p
      | .ok reqType =>
        match reqType.FieldByName "Namespace" with
        | .error p => .error p
        | .ok true =>
          if scope = annpb.SCOPE_CLUSTER then
            .ok (some ("found Namespace field in request for SCOPE_CLUSTER method " ++ name))
          else .ok none
        | .ok false =>
          if scope = annpb.SCOPE_NAMESPACE then
            .ok (some ("didn't find Namespace field in request for SCOPE_NAMESPACE method "
              ++ name))
          else .ok none

/-! ## Sample inputs -/

/-- The parameter type `context.Context`, an interface (its methods are not
read by the checker). -/
def contextContext : reflect.RType := .Interface [("Done", []), ("Err", [])]

/-- A request struct exposing a `Namespace` field. -/
def requestWithNamespace : reflect.RType := .Pointer (.Struct ["Namespace", "Identity"])

/-- A request struct exposing no `Namespace` field. -/
def requestWithoutNamespace : reflect.RType := .Pointer (.Struct ["PageSize"])

/-- A server interface with three unary methods and two streaming ones. -/
def sampleServer : reflect.RType :=
  .Interface [
    ("StartWorkflow", [contextContext, requestWithNamespace]),
    ("DescribeCluster", [contextContext, requestWithNamespace]),
    ("ListNamespaces", [contextContext, requestWithoutNamespace]),
    ("Watch", [requestWithNamespace]),
    ("Tick", [])]

/-- A method entry passes when it has a name and the validator, run on that
name and on the annotation read from its options, returns no error. -/
def Passes (serverType : reflect.RType) (x : descriptor.MethodDescriptorProto) : Prop :=
  ∃ xn, x.Name = some xn ∧
    validateAnnotation serverType xn (proto.GetExtension x.Options).1 = .ok none

/-- A file with two services.  In WorkflowService the first method is
annotated consistently, the second has no annotation and the third has a
CLUSTER scope on a request type with a Namespace field. -/
def sampleDescriptor : descriptor.FileDescriptorProto :=
  { Service := [
      { Name := some "OtherService",
        Method := [{ Name := some "Ping", Options := none }] },
      { Name := some "WorkflowService",
        Method := [
          { Name := some "StartWorkflow",
            Options := some ⟨some ⟨annpb.SCOPE_NAMESPACE, 1⟩⟩ },
          { Name := some "ListNamespaces", Options := none },
          { Name := some "DescribeCluster",
            Options := some ⟨some ⟨annpb.SCOPE_CLUSTER, 1⟩⟩ }] }] }

/-- Libraries whose registry holds one file, `sample/v1/service.proto`, which
decompresses and unmarshals to `sampleDescriptor`. -/
def sampleLibs : Libs :=
  { FileDescriptor := fun f => if f = "sample/v1/service.proto" then [31, 139, 8] else []
    NewReader := fun blob => if blob.isEmpty then some "EOF" else none
    ReadAll := fun blob => (blob.drop 2, none)
    Close := fun _ => none
    Unmarshal := fun buf =>
      if buf.length = 1 then .ok sampleDescriptor else .error "proto: unexpected EOF" }

/-- A file declaring WorkflowService with two consistently annotated methods. -/
def workflowDescriptor : descriptor.FileDescriptorProto :=
  { Service := [
      { Name := some "WorkflowService",
        Method := [
          { Name := some "StartWorkflow",
            Options := some ⟨some ⟨annpb.SCOPE_NAMESPACE, 1⟩⟩ },
          { Name := some "ListNamespaces",
            Options := some ⟨some ⟨annpb.SCOPE_CLUSTER, 1⟩⟩ }] }] }

/-- A file declaring OperatorService with one method, which has no annotation. -/
def operatorDescriptor : descriptor.FileDescriptorProto :=
  { Service := [
      { Name := some "OperatorService",
        Method := [{ Name := some "DeleteNamespace", Options := none }] }] }

/-- A server interface for OperatorService. -/
def operatorServer : reflect.RType :=
  .Interface [("DeleteNamespace", [contextContext, requestWithNamespace])]

/-- Libraries whose registry holds the two files the driver checks: the
workflow service file unmarshals to `workflowDescriptor`, the operator service
file to `operatorDescriptor`. -/
def temporalLibs : Libs :=
  { FileDescriptor := fun f =>
      if f = "temporal/api/workflowservice/v1/service.proto" then [31, 139, 8]
      else if f = "temporal/api/operatorservice/v1/service.proto" then [31, 139, 8, 0]
      else []
    NewReader := fun blob => if blob.isEmpty then some "EOF" else none
    ReadAll := fun blob => (blob.drop 2, none)
    Close := fun _ => none
    Unmarshal := fun buf =>
      if buf.length = 1 then .ok workflowDescriptor
      else if buf.length = 2 then .ok operatorDescriptor
      else .error "proto: unexpected EOF" }

/-- A server interface with a server-streaming method in the shape gRPC
generates: the request first, the stream (an interface) second. -/
def serverStreamingServer : reflect.RType :=
  .Interface [("Subscribe", [requestWithNamespace, .Interface [("Send", [])]])]

/-! ## Theorems about the validator -/

/-- Claim C1. The validator returns no error exactly when: the annotation is
present; its Scope is not UNSPECIFIED; its Access is not UNSPECIFIED; the name
resolves to a method of the server type; and, when that method has two or more
parameters, there is a request type (the element type of the second parameter,
a struct) such that Scope = CLUSTER implies it has no field named Namespace and
Scope = NAMESPACE implies it has one.  For a method with fewer than two
parameters the last condition is not required. -/
theorem validateAnnotation_ok_iff (serverType : reflect.RType) (name : String)
    (ann : Option annpb.Method) :
    validateAnnotation serverType name ann = .ok none ↔
      ∃ a, ann = some a ∧ a.Scope ≠ annpb.SCOPE_UNSPECIFIED ∧
        a.Access ≠ annpb.ACCESS_UNSPECIFIED ∧
        ∃ m, serverType.MethodByName name = some m ∧
          (m.Typ.NumIn ≥ 2 →
            ∃ in1 reqType hasNamespace,
              m.Typ.In 1 = .ok in1 ∧ in1.Elem = .ok reqType ∧
              reqType.FieldByName "Namespace" = .ok hasNamespace ∧
              (a.Scope = annpb.SCOPE_CLUSTER → hasNamespace = false) ∧
              (a.Scope = annpb.SCOPE_NAMESPACE → hasNamespace = true)) := by
  cases ann with
  | none => simp [ validateAnnotation]
  | some a =>
    by_cases hs : a.Scope = annpb.SCOPE_UNSPECIFIED
    · simp [ validateAnnotation, hs]
    by_cases ha : a.Access = annpb.ACCESS_UNSPECIFIED
    · simp [ validateAnnotation, hs, ha]
    cases hm : serverType.MethodByName name with
    | none => simp [ validateAnnotation, hs, ha, hm]
    | some m =>
      by_cases hn : m.Typ.NumIn ≥ 2
      swap
      · simp [ validateAnnotation, hs, ha, hm, hn]
      cases h1 : m.Typ.In 1 with
      | error p => simp [ validateAnnotation, hs, ha, hm, hn, h1]
      | ok in1 =>
        cases h2 : in1.Elem with
        | error p => simp [ validateAnnotation, hs, ha, hm, hn, h1, h2]
        | ok reqType =>
          cases h3 : reqType.FieldByName "Namespace" with
          | error p => simp [ validateAnnotation, hs, ha, hm, hn, h1, h2, h3]
          | ok hasNamespace =>
            cases hasNamespace <;>
              by_cases hc : a.Scope = annpb.SCOPE_CLUSTER <;>
              by_cases hns : a.Scope = annpb.SCOPE_NAMESPACE <;>
              simp [ validateAnnotation, hs, ha, hm, hn, h1, h2, h3, hc, hns,
                annpb.SCOPE_CLUSTER, annpb.SCOPE_NAMESPACE] <;>
              simp_all [annpb.SCOPE_CLUSTER, annpb.SCOPE_NAMESPACE]

/-- Witness for claim C1: the spec's StartWorkflow scenario (NAMESPACE scope,
request type with a Namespace field) succeeds, and the characterisation gives
back the five conditions. -/
theorem validateAnnotation_ok_iff_witness :
    validateAnnotation sampleServer "StartWorkflow" (some ⟨annpb.SCOPE_NAMESPACE, 1⟩) =
      .ok none ∧
    ∃ a, some (⟨annpb.SCOPE_NAMESPACE, 1⟩ : annpb.Method) = some a ∧
      a.Scope ≠ annpb.SCOPE_UNSPECIFIED ∧ a.Access ≠ annpb.ACCESS_UNSPECIFIED ∧
      ∃ m, sampleServer.MethodByName "StartWorkflow" = some m ∧
        (m.Typ.NumIn ≥ 2 →
          ∃ in1 reqType hasNamespace,
            m.Typ.In 1 = .ok in1 ∧ in1.Elem = .ok reqType ∧
            reqType.FieldByName "Namespace" = .ok hasNamespace ∧
            (a.Scope = annpb.SCOPE_CLUSTER → hasNamespace = false) ∧
            (a.Scope = annpb.SCOPE_NAMESPACE → hasNamespace = true)) :=
  ⟨rfl, (validateAnnotation_ok_iff sampleServer "StartWorkflow"
    (some ⟨annpb.SCOPE_NAMESPACE, 1⟩)).mp rfl⟩

/-- Claim C2. With an absent (nil) annotation the validator fails with exactly
"annotation for n missing", for every server type and every name n, whether or
not n is a method of the server type; for n = ListNamespaces the message is
"annotation for ListNamespaces missing". -/
theorem validateAnnotation_nil (serverType : reflect.RType) (n : String) :
    validateAnnotation serverType n none = .ok (some ("annotation for " ++ n ++ " missing")) ∧
    validateAnnotation serverType "ListNamespaces" none =
      .ok (some "annotation for ListNamespaces missing") :=
  ⟨rfl, rfl⟩

/-- Claim C3. A present annotation whose Scope is UNSPECIFIED fails with
"scope annotation for n missing", whatever its Access value, the server type
and the name n. -/
theorem validateAnnotation_scope_unspecified (serverType : reflect.RType) (n : String)
    (ann : annpb.Method) (hscope : ann.Scope = annpb.SCOPE_UNSPECIFIED) :
    validateAnnotation serverType n (some ann) =
      .ok (some ("scope annotation for " ++ n ++ " missing")) := by
  simp [ validateAnnotation, hscope]

/-- Witness for claim C3: scope UNSPECIFIED with a defined access level, on a
name that is not a method of the server type. -/
theorem validateAnnotation_scope_unspecified_witness :
    (⟨annpb.SCOPE_UNSPECIFIED, 3⟩ : annpb.Method).Scope = annpb.SCOPE_UNSPECIFIED ∧
    validateAnnotation sampleServer "NoSuchMethod" (some ⟨annpb.SCOPE_UNSPECIFIED, 3⟩) =
      .ok (some "scope annotation for NoSuchMethod missing") :=
  ⟨rfl, validateAnnotation_scope_unspecified sampleServer "NoSuchMethod"
    ⟨annpb.SCOPE_UNSPECIFIED, 3⟩ rfl⟩

/-- Claim C6. For a name that is not a method of the server type and a present
annotation with Scope and Access both specified, the validator fails with
exactly "can't find method n in server type". -/
theorem validateAnnotation_method_not_found (serverType : reflect.RType) (n : String)
    (ann : annpb.Method) (hscope : ann.Scope ≠ annpb.SCOPE_UNSPECIFIED)
    (haccess : ann.Access ≠ annpb.ACCESS_UNSPECIFIED)
    (hmissing : serverType.MethodByName n = none) :
    validateAnnotation serverType n (some ann) =
      .ok (some ("can't find method " ++ n ++ " in server type")) := by
  simp [ validateAnnotation, hscope, haccess, hmissing]

/-- Witness for claim C6: the lookup is case-sensitive, so `describecluster`
is not found although `DescribeCluster` is a method. -/
theorem validateAnnotation_method_not_found_witness :
    (⟨annpb.SCOPE_CLUSTER, 1⟩ : annpb.Method).Scope ≠ annpb.SCOPE_UNSPECIFIED ∧
    (⟨annpb.SCOPE_CLUSTER, 1⟩ : annpb.Method).Access ≠ annpb.ACCESS_UNSPECIFIED ∧
    sampleServer.MethodByName "describecluster" = none ∧
    validateAnnotation sampleServer "describecluster" (some ⟨annpb.SCOPE_CLUSTER, 1⟩) =
      .ok (some "can't find method describecluster in server type") :=
  ⟨by decide, by decide, rfl,
    validateAnnotation_method_not_found sampleServer "describecluster" ⟨annpb.SCOPE_CLUSTER, 1⟩
      (by decide) (by decide) rfl⟩

/-- Claim C7. A present annotation with Scope specified and Access UNSPECIFIED
fails with "access annotation for n missing" for every server type and name:
the method lookup and the Namespace shape rule are not evaluated, so neither an
unknown method name nor a scope/shape mismatch (nor a parameter type on which
reflection would panic) changes the reported error. -/
theorem validateAnnotation_access_unspecified (serverType : reflect.RType) (n : String)
    (ann : annpb.Method) (hscope : ann.Scope ≠ annpb.SCOPE_UNSPECIFIED)
    (haccess : ann.Access = annpb.ACCESS_UNSPECIFIED) :
    validateAnnotation serverType n (some ann) =
      .ok (some ("access annotation for " ++ n ++ " missing")) := by
  simp [ validateAnnotation, hscope, haccess]

/-- Witness for claim C7: DescribeCluster with CLUSTER scope has a shape
mismatch, yet the missing access level is what is reported. -/
theorem validateAnnotation_access_unspecified_witness :
    (⟨annpb.SCOPE_CLUSTER, annpb.ACCESS_UNSPECIFIED⟩ : annpb.Method).Scope ≠
      annpb.SCOPE_UNSPECIFIED ∧
    (⟨annpb.SCOPE_CLUSTER, annpb.ACCESS_UNSPECIFIED⟩ : annpb.Method).Access =
      annpb.ACCESS_UNSPECIFIED ∧
    validateAnnotation sampleServer "DescribeCluster"
        (some ⟨annpb.SCOPE_CLUSTER, annpb.ACCESS_UNSPECIFIED⟩) =
      .ok (some "access annotation for DescribeCluster missing") :=
  ⟨by decide, rfl,
    validateAnnotation_access_unspecified sampleServer "DescribeCluster"
      ⟨annpb.SCOPE_CLUSTER, annpb.ACCESS_UNSPECIFIED⟩ (by decide) rfl⟩

/-- Claim C4, counterexample. DescribeCluster is a unary method of the sample
server whose request type has a Namespace field, and the annotation is
CLUSTER-scoped, but its Access is UNSPECIFIED: the validator reports the missing
access level, not the shape mismatch. -/
theorem validateAnnotation_cluster_shape_counterexample :
    sampleServer.MethodByName "DescribeCluster" =
      some ⟨"DescribeCluster", ⟨[contextContext, requestWithNamespace]⟩⟩ ∧
    requestWithNamespace.Elem = .ok (.Struct ["Namespace", "Identity"]) ∧
    reflect.RType.FieldByName (.Struct ["Namespace", "Identity"]) "Namespace" = .ok true ∧
    validateAnnotation sampleServer "DescribeCluster"
        (some ⟨annpb.SCOPE_CLUSTER, annpb.ACCESS_UNSPECIFIED⟩) =
      .ok (some "access annotation for DescribeCluster missing") ∧
    validateAnnotation sampleServer "DescribeCluster"
        (some ⟨annpb.SCOPE_CLUSTER, annpb.ACCESS_UNSPECIFIED⟩) ≠
      .ok (some "found Namespace field in request for SCOPE_CLUSTER method DescribeCluster") := by
  refine ⟨rfl, rfl, rfl, rfl, ?_⟩
  intro h
  have hmsg := Option.some.inj (Except.ok.inj h)
  exact absurd hmsg (by decide)

/-- Claim C4, amended. For a unary method (resolved on the server type, with
two or more parameters) whose request type has a Namespace field, every
CLUSTER-scoped annotation whose Access is not UNSPECIFIED fails with
"found Namespace field in request for SCOPE_CLUSTER method n". -/
theorem validateAnnotation_cluster_shape (serverType : reflect.RType) (n : String)
    (ann : annpb.Method) (m : reflect.Method) (in1 reqType : reflect.RType)
    (hmethod : serverType.MethodByName n = some m) (hunary : m.Typ.NumIn ≥ 2)
    (hin : m.Typ.In 1 = .ok in1) (helem : in1.Elem = .ok reqType)
    (hfield : reqType.FieldByName "Namespace" = .ok true)
    (hscope : ann.Scope = annpb.SCOPE_CLUSTER)
    (haccess : ann.Access ≠ annpb.ACCESS_UNSPECIFIED) :
    validateAnnotation serverType n (some ann) =
      .ok (some ("found Namespace field in request for SCOPE_CLUSTER method " ++ n)) := by
  simp [ validateAnnotation, hmethod, hunary, hin, helem, hfield, hscope, haccess,
    annpb.SCOPE_CLUSTER, annpb.SCOPE_UNSPECIFIED]

/-- Witness for claim C4: the spec's DescribeCluster scenario. -/
theorem validateAnnotation_cluster_shape_witness :
    validateAnnotation sampleServer "DescribeCluster" (some ⟨annpb.SCOPE_CLUSTER, 1⟩) =
      .ok (some "found Namespace field in request for SCOPE_CLUSTER method DescribeCluster") :=
  validateAnnotation_cluster_shape sampleServer "DescribeCluster" ⟨annpb.SCOPE_CLUSTER, 1⟩
    ⟨"DescribeCluster", ⟨[contextContext, requestWithNamespace]⟩⟩ requestWithNamespace
    (.Struct ["Namespace", "Identity"]) rfl (by decide) rfl rfl rfl rfl (by decide)

/-- Claim C5, counterexample. ListNamespaces is a unary method of the sample
server whose request type lacks a Namespace field, and the annotation is
NAMESPACE-scoped, but its Access is UNSPECIFIED: the validator reports the
missing access level, not the shape mismatch. -/
theorem validateAnnotation_namespace_shape_counterexample :
    sampleServer.MethodByName "ListNamespaces" =
      some ⟨"ListNamespaces", ⟨[contextContext, requestWithoutNamespace]⟩⟩ ∧
    requestWithoutNamespace.Elem = .ok (.Struct ["PageSize"]) ∧
    reflect.RType.FieldByName (.Struct ["PageSize"]) "Namespace" = .ok false ∧
    validateAnnotation sampleServer "ListNamespaces"
        (some ⟨annpb.SCOPE_NAMESPACE, annpb.ACCESS_UNSPECIFIED⟩) =
      .ok (some "access annotation for ListNamespaces missing") ∧
    validateAnnotation sampleServer "ListNamespaces"
        (some ⟨annpb.SCOPE_NAMESPACE, annpb.ACCESS_UNSPECIFIED⟩) ≠
      .ok (some
        "didn't find Namespace field in request for SCOPE_NAMESPACE method ListNamespaces") := by
  refine ⟨rfl, rfl, rfl, rfl, ?_⟩
  intro h
  have hmsg := Option.some.inj (Except.ok.inj h)
  exact absurd hmsg (by decide)

/-- Claim C5, amended. For a unary method (resolved on the server type, with
two or more parameters) whose request type lacks a Namespace field, every
NAMESPACE-scoped annotation whose Access is not UNSPECIFIED fails with
"didn't find Namespace field in request for SCOPE_NAMESPACE method n". -/
theorem validateAnnotation_namespace_shape (serverType : reflect.RType) (n : String)
    (ann : annpb.Method) (m : reflect.Method) (in1 reqType : reflect.RType)
    (hmethod : serverType.MethodByName n = some m) (hunary : m.Typ.NumIn ≥ 2)
    (hin : m.Typ.In 1 = .ok in1) (helem : in1.Elem = .ok reqType)
    (hfield : reqType.FieldByName "Namespace" = .ok false)
    (hscope : ann.Scope = annpb.SCOPE_NAMESPACE)
    (haccess : ann.Access ≠ annpb.ACCESS_UNSPECIFIED) :
    validateAnnotation serverType n (some ann) =
      .ok (some ("didn't find Namespace field in request for SCOPE_NAMESPACE method " ++ n)) := by
  simp [ validateAnnotation, hmethod, hunary, hin, helem, hfield, hscope, haccess,
    annpb.SCOPE_CLUSTER, annpb.SCOPE_NAMESPACE, annpb.SCOPE_UNSPECIFIED]

/-- Witness for claim C5: ListNamespaces annotated NAMESPACE with a defined
access level. -/
theorem validateAnnotation_namespace_shape_witness :
    validateAnnotation sampleServer "ListNamespaces" (some ⟨annpb.SCOPE_NAMESPACE, 1⟩) =
      .ok (some
        "didn't find Namespace field in request for SCOPE_NAMESPACE method ListNamespaces") :=
  validateAnnotation_namespace_shape sampleServer "ListNamespaces" ⟨annpb.SCOPE_NAMESPACE, 1⟩
    ⟨"ListNamespaces", ⟨[contextContext, requestWithoutNamespace]⟩⟩ requestWithoutNamespace
    (.Struct ["PageSize"]) rfl (by decide) rfl rfl rfl rfl (by decide)

/-- Claim C8. A streaming method never triggers the shape rule: for a method
resolved on the server type whose signature has fewer than two parameters, and
a present annotation with Scope and Access specified, the validator succeeds
whatever the Scope value and whatever the parameter types are (none of them is
inspected, so none can make reflection panic). -/
theorem validateAnnotation_streaming (serverType : reflect.RType) (n : String)
    (ann : annpb.Method) (m : reflect.Method)
    (hmethod : serverType.MethodByName n = some m) (hstream : m.Typ.NumIn < 2)
    (hscope : ann.Scope ≠ annpb.SCOPE_UNSPECIFIED)
    (haccess : ann.Access ≠ annpb.ACCESS_UNSPECIFIED) :
    validateAnnotation serverType n (some ann) = .ok none := by
  have hnot : ¬ (2 ≤ m.Typ.NumIn) := by omega
  simp [ validateAnnotation, hmethod, hnot, hscope, haccess]

/-- Witness for claim C8: Watch has a single parameter, whose element type has
a Namespace field; a CLUSTER scope is accepted all the same. -/
theorem validateAnnotation_streaming_witness :
    validateAnnotation sampleServer "Watch" (some ⟨annpb.SCOPE_CLUSTER, 1⟩) = .ok none :=
  validateAnnotation_streaming sampleServer "Watch" ⟨annpb.SCOPE_CLUSTER, 1⟩
    ⟨"Watch", ⟨[requestWithNamespace]⟩⟩ rfl (by decide) (by decide) (by decide)

/-- Claim C9, counterexample. Watch is a resolved method of the sample server
that takes one argument, and the element type of that first argument has a
Namespace field.  Rule 5 as worded (at least one argument, first argument
inspected) rejects a CLUSTER scope on it; the validator accepts it. -/
theorem shapeRule_as_worded_counterexample :
    sampleServer.MethodByName "Watch" = some ⟨"Watch", ⟨[requestWithNamespace]⟩⟩ ∧
    shapeRule 1 0 ⟨"Watch", ⟨[requestWithNamespace]⟩⟩ annpb.SCOPE_CLUSTER "Watch" =
      .ok (some "found Namespace field in request for SCOPE_CLUSTER method Watch") ∧
    validateAnnotation sampleServer "Watch" (some ⟨annpb.SCOPE_CLUSTER, 1⟩) = .ok none ∧
    validateAnnotation sampleServer "Watch" (some ⟨annpb.SCOPE_CLUSTER, 1⟩) ≠
      shapeRule 1 0 ⟨"Watch", ⟨[requestWithNamespace]⟩⟩ annpb.SCOPE_CLUSTER "Watch" := by
  refine ⟨rfl, rfl, rfl, ?_⟩
  intro h
  have h2 : (Except.ok none : Except Panic (Option String)) =
      .ok (some "found Namespace field in request for SCOPE_CLUSTER method Watch") := h
  exact Option.noConfusion (Except.ok.inj h2)

/-- Claim C9, amended. For a method resolved on the server type and a present
annotation with Scope and Access specified, the validator's verdict is rule 5
applied to exactly the methods whose signature has at least two parameters,
the type inspected for the field named "Namespace" being the element type of
the second parameter (index 1). -/
theorem validateAnnotation_eq_shapeRule (serverType : reflect.RType) (n : String)
    (ann : annpb.Method) (m : reflect.Method)
    (hmethod : serverType.MethodByName n = some m)
    (hscope : ann.Scope ≠ annpb.SCOPE_UNSPECIFIED)
    (haccess : ann.Access ≠ annpb.ACCESS_UNSPECIFIED) :
    validateAnnotation serverType n (some ann) = shapeRule 2 1 m ann.Scope n := by
  by_cases hn : m.Typ.ins.length < 2
  · have hnot : ¬ (2 ≤ m.Typ.ins.length) := by omega
    simp [ validateAnnotation, shapeRule, hmethod, hscope, haccess, hn, hnot,
      reflect.FuncType.NumIn]
  · have hge : 2 ≤ m.Typ.ins.length := by omega
    cases hget : m.Typ.ins[1]? with
    | none =>
      simp [ validateAnnotation, shapeRule, hmethod, hscope, haccess, hn, hge, hget,
        reflect.FuncType.NumIn, reflect.FuncType.In]
    | some arg =>
      cases helem : arg.Elem with
      | error p =>
        simp [ validateAnnotation, shapeRule, hmethod, hscope, haccess, hn, hge, hget, helem,
          reflect.FuncType.NumIn, reflect.FuncType.In]
      | ok reqType =>
        cases hfield : reqType.FieldByName "Namespace" with
        | error p =>
          simp [ validateAnnotation, shapeRule, hmethod, hscope, haccess, hn, hge, hget, helem,
            hfield, reflect.FuncType.NumIn, reflect.FuncType.In]
        | ok hasNamespace =>
          cases hasNamespace <;>
            by_cases hc : ann.Scope = annpb.SCOPE_CLUSTER <;>
            by_cases hns : ann.Scope = annpb.SCOPE_NAMESPACE <;>
            simp [ validateAnnotation, shapeRule, hmethod, hscope, haccess, hn, hge, hget,
              helem, hfield, hc, hns, reflect.FuncType.NumIn, reflect.FuncType.In] <;>
            simp_all [annpb.SCOPE_CLUSTER, annpb.SCOPE_NAMESPACE]

/-- Witness for claim C9: DescribeCluster takes a context and a request; the
verdict comes from the request, the second parameter. -/
theorem validateAnnotation_eq_shapeRule_witness :
    validateAnnotation sampleServer "DescribeCluster" (some ⟨annpb.SCOPE_CLUSTER, 1⟩) =
      shapeRule 2 1 ⟨"DescribeCluster", ⟨[contextContext, requestWithNamespace]⟩⟩
        annpb.SCOPE_CLUSTER "DescribeCluster" :=
  validateAnnotation_eq_shapeRule sampleServer "DescribeCluster" ⟨annpb.SCOPE_CLUSTER, 1⟩
    ⟨"DescribeCluster", ⟨[contextContext, requestWithNamespace]⟩⟩ rfl
    (by decide) (by decide)

/-! ## Theorems about the checker -/

/-- One step of the method loop on an entry that passes: the loop goes on
with the rest. -/
theorem methodLoop_cons_of_passes (serverType : reflect.RType)
    (x : descriptor.MethodDescriptorProto) (rest : List descriptor.MethodDescriptorProto)
    (hx : Passes serverType x) :
    methodLoop serverType (x :: rest) = methodLoop serverType rest := by
  obtain ⟨xn, hname, hval⟩ := hx
  simp [methodLoop, deref, hname, hval]

/-- One step of the method loop on an entry whose validation returns an
error: the loop returns that error. -/
theorem methodLoop_cons_of_fails (serverType : reflect.RType)
    (x : descriptor.MethodDescriptorProto) (rest : List descriptor.MethodDescriptorProto)
    (n e : String) (hname : x.Name = some n)
    (hfail : validateAnnotation serverType n (proto.GetExtension x.Options).1 = .ok (some e)) :
    methodLoop serverType (x :: rest) = .ok (some e) := by
  simp [methodLoop, deref, hname, hfail]

/-- Entries that all pass are run through without effect on the result. -/
theorem methodLoop_append_of_passes (serverType : reflect.RType)
    (pre rest : List descriptor.MethodDescriptorProto)
    (hpre : ∀ x ∈ pre, Passes serverType x) :
    methodLoop serverType (pre ++ rest) = methodLoop serverType rest := by
  induction pre with
  | nil => rfl
  | cons x xs ih =>
    have hx : Passes serverType x := hpre x (List.mem_cons_self x xs)
    have hxs : ∀ y ∈ xs, Passes serverType y := fun y hy => hpre y (List.mem_cons_of_mem x hy)
    rw [List.cons_append, methodLoop_cons_of_passes serverType x (xs ++ rest) hx]
    exact ih hxs

/-- A service all of whose entries pass yields no error. -/
theorem methodLoop_of_passes (serverType : reflect.RType)
    (ms : List descriptor.MethodDescriptorProto) (hms : ∀ x ∈ ms, Passes serverType x) :
    methodLoop serverType ms = .ok none := by
  have h := methodLoop_append_of_passes serverType ms [] hms
  rw [List.append_nil] at h
  rw [h]
  rfl

/-- Services that are named, and that either carry another name or have only
passing entries, are run through without effect on the result. -/
theorem serviceLoop_append_of_passes (serverType : reflect.RType) (serviceName : String)
    (before rest : List descriptor.ServiceDescriptorProto)
    (hbefore : ∀ s ∈ before, ∃ sn, s.Name = some sn ∧
      (sn = serviceName → ∀ x ∈ s.Method, Passes serverType x)) :
    serviceLoop serverType serviceName (before ++ rest) =
      serviceLoop serverType serviceName rest := by
  induction before with
  | nil => rfl
  | cons s ss ih =>
    obtain ⟨sn, hname, hpass⟩ := hbefore s (List.mem_cons_self s ss)
    have hss : ∀ t ∈ ss, ∃ tn, t.Name = some tn ∧
        (tn = serviceName → ∀ x ∈ t.Method, Passes serverType x) :=
      fun t ht => hbefore t (List.mem_cons_of_mem s ht)
    by_cases heq : sn = serviceName
    · have hm := methodLoop_of_passes serverType s.Method (hpass heq)
      simp [serviceLoop, deref, hname, heq, hm]
      exact ih hss
    · simp [serviceLoop, deref, hname, heq]
      exact ih hss

/-- Claim C10. First-failure semantics: when the descriptor loads, and a
service named serviceName has a method m whose validation returns the error e
while the methods declared before it pass (as do the services scanned before
it), the checker returns exactly e, whatever the methods and services declared
after m are. -/
theorem checkAnnotations_first_failure (lib : Libs) (protoFile serviceName : String)
    (serverType : reflect.RType) (d : descriptor.FileDescriptorProto)
    (before after : List descriptor.ServiceDescriptorProto)
    (svc : descriptor.ServiceDescriptorProto)
    (pre post : List descriptor.MethodDescriptorProto)
    (m : descriptor.MethodDescriptorProto) (n e : String)
    (hload : loadDescriptor lib protoFile = .ok d)
    (hservices : d.Service = before ++ svc :: after)
    (hbefore : ∀ s ∈ before, ∃ sn, s.Name = some sn ∧
      (sn = serviceName → ∀ x ∈ s.Method, Passes serverType x))
    (hsvc : svc.Name = some serviceName)
    (hmethods : svc.Method = pre ++ m :: post)
    (hpre : ∀ x ∈ pre, Passes serverType x)
    (hname : m.Name = some n)
    (hfail : validateAnnotation serverType n (proto.GetExtension m.Options).1 = .ok (some e)) :
    checkAnnotations lib protoFile serviceName serverType = .ok (some e) := by
  have hm : methodLoop serverType svc.Method = .ok (some e) := by
    rw [hmethods, methodLoop_append_of_passes serverType pre (m :: post) hpre]
    exact methodLoop_cons_of_fails serverType m post n e hname hfail
  simp only [checkAnnotations, hload, hservices]
  rw [serviceLoop_append_of_passes serverType serviceName before (svc :: after) hbefore]
  simp [serviceLoop, deref, hsvc, hm]

/-- Witness for claim C10: in the sample file, StartWorkflow passes,
ListNamespaces has no annotation and DescribeCluster has a shape mismatch; the
error reported is the one of ListNamespaces. -/
theorem checkAnnotations_first_failure_witness :
    checkAnnotations sampleLibs "sample/v1/service.proto" "WorkflowService" sampleServer =
      .ok (some "annotation for ListNamespaces missing") :=
  checkAnnotations_first_failure sampleLibs "sample/v1/service.proto" "WorkflowService"
    sampleServer sampleDescriptor
    [{ Name := some "OtherService", Method := [{ Name := some "Ping", Options := none }] }]
    []
    { Name := some "WorkflowService",
      Method := [
        { Name := some "StartWorkflow", Options := some ⟨some ⟨annpb.SCOPE_NAMESPACE, 1⟩⟩ },
        { Name := some "ListNamespaces", Options := none },
        { Name := some "DescribeCluster",
          Options := some ⟨some ⟨annpb.SCOPE_CLUSTER, 1⟩⟩ }] }
    [{ Name := some "StartWorkflow", Options := some ⟨some ⟨annpb.SCOPE_NAMESPACE, 1⟩⟩ }]
    [{ Name := some "DescribeCluster", Options := some ⟨some ⟨annpb.SCOPE_CLUSTER, 1⟩⟩ }]
    { Name := some "ListNamespaces", Options := none }
    "ListNamespaces" "annotation for ListNamespaces missing"
    rfl rfl
    (by
      intro s hs
      rw [List.mem_singleton] at hs
      subst hs
      exact ⟨"OtherService", rfl, fun h => absurd h (by decide)⟩)
    rfl rfl
    (by
      intro x hx
      rw [List.mem_singleton] at hx
      subst hx
      exact ⟨"StartWorkflow", rfl, rfl⟩)
    rfl rfl

/-! ## The log of calls -/

/-- The result component of the logged inner loop is the inner loop. -/
theorem methodLoopCalls_snd (serverType : reflect.RType)
    (ms : List descriptor.MethodDescriptorProto) :
    (methodLoopCalls serverType ms).2 = methodLoop serverType ms := by
  induction ms with
  | nil => rfl
  | cons x xs ih =>
    cases hname : x.Name with
    | none => simp [methodLoopCalls, methodLoop, deref, hname]
    | some n =>
      cases hval : validateAnnotation serverType n (proto.GetExtension x.Options).1 with
      | error p => simp [methodLoopCalls, methodLoop, deref, hname, hval]
      | ok r =>
        cases r with
        | some e => simp [methodLoopCalls, methodLoop, deref, hname, hval]
        | none => simp [methodLoopCalls, methodLoop, deref, hname, hval, ih]

/-- The result component of the logged outer loop is the outer loop. -/
theorem serviceLoopCalls_snd (serverType : reflect.RType) (serviceName : String)
    (ss : List descriptor.ServiceDescriptorProto) :
    (serviceLoopCalls serverType serviceName ss).2 = serviceLoop serverType serviceName ss := by
  induction ss with
  | nil => rfl
  | cons s rest ih =>
    cases hname : s.Name with
    | none => simp [serviceLoopCalls, serviceLoop, deref, hname]
    | some sn =>
      by_cases heq : sn = serviceName
      · have hm := methodLoopCalls_snd serverType s.Method
        rcases hcalls : methodLoopCalls serverType s.Method with ⟨calls, res⟩
        rw [hcalls] at hm
        simp only at hm
        cases res with
        | error p => simp [serviceLoopCalls, serviceLoop, deref, hname, heq, hcalls, ← hm]
        | ok r =>
          cases r with
          | some e => simp [serviceLoopCalls, serviceLoop, deref, hname, heq, hcalls, ← hm]
          | none => simp [serviceLoopCalls, serviceLoop, deref, hname, heq, hcalls, ← hm, ih]
      · simp [serviceLoopCalls, serviceLoop, deref, hname, heq, ih]

/-- The result component of the logged checker is the checker. -/
theorem checkAnnotationsCalls_snd (lib : Libs) (protoFile serviceName : String)
    (serverType : reflect.RType) :
    (checkAnnotationsCalls lib protoFile serviceName serverType).2 =
      checkAnnotations lib protoFile serviceName serverType := by
  cases hload : loadDescriptor lib protoFile with
  | error err => simp [checkAnnotationsCalls, checkAnnotations, hload]
  | ok d =>
    simp [checkAnnotationsCalls, checkAnnotations, hload, serviceLoopCalls_snd]

/-- The calls of the inner loop run through the entries of the service in
order and stop at the first failure. -/
theorem methodLoopCalls_inOrder (serverType : reflect.RType)
    (ms : List descriptor.MethodDescriptorProto) :
    InOrderUntilFailure serverType (ms.filterMap callOf)
      (methodLoopCalls serverType ms).1 (methodLoopCalls serverType ms).2 := by
  induction ms with
  | nil =>
    refine ⟨List.prefix_refl _, fun _ => ⟨rfl, ?_⟩, ?_⟩
    · intro c hc
      simp [methodLoopCalls] at hc
    · intro e he
      simp [methodLoopCalls] at he
  | cons x xs ih =>
    cases hname : x.Name with
    | none =>
      refine ⟨?_, ?_, ?_⟩
      · simp [methodLoopCalls, deref, hname]
      · intro h
        simp [methodLoopCalls, deref, hname] at h
      · intro e h
        simp [methodLoopCalls, deref, hname] at h
    | some n =>
      have hcall : callOf x = some (n, (proto.GetExtension x.Options).1) := by
        simp [callOf, hname]
      cases hval : validateAnnotation serverType n (proto.GetExtension x.Options).1 with
      | error p =>
        refine ⟨?_, ?_, ?_⟩
        · simp [methodLoopCalls, deref, hname, hval, List.filterMap_cons, hcall]
        · intro h
          simp [methodLoopCalls, deref, hname, hval] at h
        · intro e h
          simp [methodLoopCalls, deref, hname, hval] at h
      | ok r =>
        cases r with
        | some err =>
          refine ⟨?_, ?_, ?_⟩
          · simp [methodLoopCalls, deref, hname, hval, List.filterMap_cons, hcall]
          · intro h
            simp [methodLoopCalls, deref, hname, hval] at h
          · intro e h
            simp [methodLoopCalls, deref, hname, hval] at h
            subst h
            refine ⟨[], (n, (proto.GetExtension x.Options).1), ?_, hval, ?_⟩
            · simp [methodLoopCalls, deref, hname, hval]
            · intro b hb
              simp at hb
        | none =>
          obtain ⟨hpre, hok, herr⟩ := ih
          have hcalls : (methodLoopCalls serverType (x :: xs)).1 =
              (n, (proto.GetExtension x.Options).1) :: (methodLoopCalls serverType xs).1 := by
            simp [methodLoopCalls, deref, hname, hval]
          have hres : (methodLoopCalls serverType (x :: xs)).2 =
              (methodLoopCalls serverType xs).2 := by
            simp [methodLoopCalls, deref, hname, hval]
          rw [hcalls, hres, List.filterMap_cons, hcall]
          refine ⟨?_, ?_, ?_⟩
          · obtain ⟨t, ht⟩ := hpre
            exact ⟨t, by rw [List.cons_append, ht]⟩
          · intro h
            obtain ⟨heq, hall⟩ := hok h
            refine ⟨by rw [heq], ?_⟩
            intro c hc
            rcases List.mem_cons.mp hc with hc | hc
            · rw [hc]
              exact hval
            · exact hall c hc
          · intro e h
            obtain ⟨init, c, hsplit, hc, hinit⟩ := herr e h
            refine ⟨(n, (proto.GetExtension x.Options).1) :: init, c, ?_, hc, ?_⟩
            · rw [hsplit, List.cons_append]
            · intro b hb
              rcases List.mem_cons.mp hb with hb | hb
              · rw [hb]
                exact hval
              · exact hinit b hb

/-- The calls of the outer loop run through the entries of the services named
serviceName in order and stop at the first failure. -/
theorem serviceLoopCalls_inOrder (serverType : reflect.RType) (serviceName : String)
    (ss : List descriptor.ServiceDescriptorProto) :
    InOrderUntilFailure serverType (declaredCalls { Service := ss } serviceName)
      (serviceLoopCalls serverType serviceName ss).1
      (serviceLoopCalls serverType serviceName ss).2 := by
  induction ss with
  | nil =>
    refine ⟨List.prefix_refl _, fun _ => ⟨rfl, ?_⟩, ?_⟩
    · intro c hc
      simp [serviceLoopCalls] at hc
    · intro e he
      simp [serviceLoopCalls] at he
  | cons s rest ih =>
    cases hname : s.Name with
    | none =>
      refine ⟨?_, ?_, ?_⟩
      · simp [serviceLoopCalls, deref, hname]
      · intro h
        simp [serviceLoopCalls, deref, hname] at h
      · intro e h
        simp [serviceLoopCalls, deref, hname] at h
    | some sn =>
      by_cases heq : sn = serviceName
      · have hdecl : declaredCalls { Service := s :: rest } serviceName =
            s.Method.filterMap callOf ++ declaredCalls { Service := rest } serviceName := by
          simp [declaredCalls, targetMethods, targetServices, List.filter_cons, hname, heq]
        obtain ⟨mpre, mok, merr⟩ := methodLoopCalls_inOrder serverType s.Method
        obtain ⟨hpre, hok, herr⟩ := ih
        rw [hdecl]
        rcases hcalls : methodLoopCalls serverType s.Method with ⟨calls, res⟩
        rw [hcalls] at mpre mok merr
        simp only at mpre mok merr
        cases res with
        | error p =>
          refine ⟨?_, ?_, ?_⟩
          · simp only [serviceLoopCalls, deref, hname, heq, hcalls]
            simp
            exact List.IsPrefix.trans mpre (List.prefix_append _ _)
          · intro h
            simp [serviceLoopCalls, deref, hname, heq, hcalls] at h
          · intro e h
            simp [serviceLoopCalls, deref, hname, heq, hcalls] at h
        | ok r =>
          cases r with
          | some err =>
            refine ⟨?_, ?_, ?_⟩
            · simp only [serviceLoopCalls, deref, hname, heq, hcalls]
              simp
              exact List.IsPrefix.trans mpre (List.prefix_append _ _)
            · intro h
              simp [serviceLoopCalls, deref, hname, heq, hcalls] at h
            · intro e h
              simp [serviceLoopCalls, deref, hname, heq, hcalls] at h
              subst h
              have hlog : (serviceLoopCalls serverType serviceName (s :: rest)).1 = calls := by
                simp [serviceLoopCalls, deref, hname, heq, hcalls]
              rw [hlog]
              exact merr err rfl
          | none =>
            obtain ⟨hfull, hall⟩ := mok rfl
            have hlog : (serviceLoopCalls serverType serviceName (s :: rest)).1 =
                calls ++ (serviceLoopCalls serverType serviceName rest).1 := by
              simp [serviceLoopCalls, deref, hname, heq, hcalls]
            have hres : (serviceLoopCalls serverType serviceName (s :: rest)).2 =
                (serviceLoopCalls serverType serviceName rest).2 := by
              simp [serviceLoopCalls, deref, hname, heq, hcalls]
            rw [hlog, hres, ← hfull]
            refine ⟨?_, ?_, ?_⟩
            · exact (List.prefix_append_right_inj calls).mpr hpre
            · intro h
              obtain ⟨heq2, hall2⟩ := hok h
              refine ⟨by rw [heq2], ?_⟩
              intro c hc
              rcases List.mem_append.mp hc with hc | hc
              · exact hall c hc
              · exact hall2 c hc
            · intro e h
              obtain ⟨init, c, hsplit, hc, hinit⟩ := herr e h
              refine ⟨calls ++ init, c, ?_, hc, ?_⟩
              · rw [hsplit, List.append_assoc]
              · intro b hb
                rcases List.mem_append.mp hb with hb | hb
                · exact hall b hb
                · exact hinit b hb
      · have hdecl : declaredCalls { Service := s :: rest } serviceName =
            declaredCalls { Service := rest } serviceName := by
          simp [declaredCalls, targetMethods, targetServices, List.filter_cons, hname, heq]
        have hloop : serviceLoopCalls serverType serviceName (s :: rest) =
            serviceLoopCalls serverType serviceName rest := by
          simp [serviceLoopCalls, deref, hname, heq]
        rw [hdecl, hloop]
        exact ih

/-- Claim C11, counterexample. In the sample file the service WorkflowService
declares StartWorkflow, ListNamespaces and DescribeCluster.  The run stops at
ListNamespaces, whose annotation is missing: the validator is invoked for the
first two methods only, and DescribeCluster is skipped. -/
theorem checkAnnotationsCalls_skips_counterexample :
    loadDescriptor sampleLibs "sample/v1/service.proto" = .ok sampleDescriptor ∧
    declaredCalls sampleDescriptor "WorkflowService" =
      [("StartWorkflow", some ⟨annpb.SCOPE_NAMESPACE, 1⟩), ("ListNamespaces", none),
        ("DescribeCluster", some ⟨annpb.SCOPE_CLUSTER, 1⟩)] ∧
    (checkAnnotationsCalls sampleLibs "sample/v1/service.proto" "WorkflowService"
        sampleServer).1 =
      [("StartWorkflow", some ⟨annpb.SCOPE_NAMESPACE, 1⟩), ("ListNamespaces", none)] ∧
    ¬ (("DescribeCluster", some ⟨annpb.SCOPE_CLUSTER, 1⟩) ∈
      (checkAnnotationsCalls sampleLibs "sample/v1/service.proto" "WorkflowService"
        sampleServer).1) := by
  refine ⟨rfl, rfl, rfl, ?_⟩
  have hlog : (checkAnnotationsCalls sampleLibs "sample/v1/service.proto" "WorkflowService"
      sampleServer).1 =
      [("StartWorkflow", some ⟨annpb.SCOPE_NAMESPACE, 1⟩), ("ListNamespaces", none)] := rfl
  rw [hlog]
  decide

/-- Claim C11, amended. For a descriptor that loads, the checker invokes the
validator on the methods declared in the services named serviceName in
declaration order, each with its name and its annotation-or-absence, at most
once each: the invocations are an initial segment of the declared methods.
When the checker returns no error every declared method has been validated
exactly once, none skipped; when it returns an error, the last invocation is
the one that returned it and every earlier one returned no error. -/
theorem checkAnnotationsCalls_inOrder (lib : Libs) (protoFile serviceName : String)
    (serverType : reflect.RType) (d : descriptor.FileDescriptorProto)
    (hload : loadDescriptor lib protoFile = .ok d) :
    InOrderUntilFailure serverType (declaredCalls d serviceName)
      (checkAnnotationsCalls lib protoFile serviceName serverType).1
      (checkAnnotations lib protoFile serviceName serverType) := by
  rw [← checkAnnotationsCalls_snd]
  have h := serviceLoopCalls_inOrder serverType serviceName d.Service
  simpa [checkAnnotationsCalls, hload] using h

/-- Witness for claim C11: the sample file and its service WorkflowService. -/
theorem checkAnnotationsCalls_inOrder_witness :
    InOrderUntilFailure sampleServer (declaredCalls sampleDescriptor "WorkflowService")
      (checkAnnotationsCalls sampleLibs "sample/v1/service.proto" "WorkflowService"
        sampleServer).1
      (checkAnnotations sampleLibs "sample/v1/service.proto" "WorkflowService" sampleServer) :=
  checkAnnotationsCalls_inOrder sampleLibs "sample/v1/service.proto" "WorkflowService"
    sampleServer sampleDescriptor rfl

/-- Services that all carry a name other than serviceName are run through
without a call to the validator and without error. -/
theorem serviceLoopCalls_of_no_match (serverType : reflect.RType) (serviceName : String)
    (ss : List descriptor.ServiceDescriptorProto)
    (hnone : ∀ s ∈ ss, ∃ sn, s.Name = some sn ∧ sn ≠ serviceName) :
    serviceLoopCalls serverType serviceName ss = ([], .ok none) := by
  induction ss with
  | nil => rfl
  | cons s rest ih =>
    obtain ⟨sn, hname, hne⟩ := hnone s (List.mem_cons_self s rest)
    have hrest : ∀ t ∈ rest, ∃ tn, t.Name = some tn ∧ tn ≠ serviceName :=
      fun t ht => hnone t (List.mem_cons_of_mem s ht)
    simp [serviceLoopCalls, deref, hname, hne, ih hrest]

/-- Claim C12. For a descriptor that loads and in which every service carries
a name other than serviceName, the checker validates zero methods and returns
no error, whatever the methods and annotations of those services are. -/
theorem checkAnnotations_no_matching_service (lib : Libs) (protoFile serviceName : String)
    (serverType : reflect.RType) (d : descriptor.FileDescriptorProto)
    (hload : loadDescriptor lib protoFile = .ok d)
    (hnone : ∀ s ∈ d.Service, ∃ sn, s.Name = some sn ∧ sn ≠ serviceName) :
    (checkAnnotationsCalls lib protoFile serviceName serverType).1 = [] ∧
    checkAnnotations lib protoFile serviceName serverType = .ok none := by
  have h : checkAnnotationsCalls lib protoFile serviceName serverType = ([], .ok none) := by
    simp [checkAnnotationsCalls, hload,
      serviceLoopCalls_of_no_match serverType serviceName d.Service hnone]
  rw [← checkAnnotationsCalls_snd, h]
  exact ⟨rfl, rfl⟩

/-- Witness for claim C12: the sample file checked under the mistyped name
WorkflowServise validates nothing and passes, although WorkflowService has a
method without annotation. -/
theorem checkAnnotations_no_matching_service_witness :
    (checkAnnotationsCalls sampleLibs "sample/v1/service.proto" "WorkflowServise"
      sampleServer).1 = [] ∧
    checkAnnotations sampleLibs "sample/v1/service.proto" "WorkflowServise" sampleServer =
      .ok none :=
  checkAnnotations_no_matching_service sampleLibs "sample/v1/service.proto" "WorkflowServise"
    sampleServer sampleDescriptor rfl
    (by
      intro s hs
      simp only [sampleDescriptor, List.mem_cons, List.mem_singleton, List.not_mem_nil,
        or_false] at hs
      rcases hs with hs | hs
      · exact ⟨"OtherService", by rw [hs], by decide⟩
      · exact ⟨"WorkflowService", by rw [hs], by decide⟩)

/-! ## Theorems about the driver and the loader -/

/-- Claim C13. Exit status of the driver.  If the first pass (WorkflowService)
returns an error, that error is printed, the status is 1 and the second pass
is not started, whatever the second server type is.  If the first pass returns
no error and the second (OperatorService) returns an error, that error is
printed and the status is 1.  The run ends with status 0 and no output exactly
when both passes return no error. -/
theorem main_exit_status (lib : Libs)
    (workflowServiceServer operatorServiceServer : reflect.RType) :
    (∀ e, checkAnnotations lib "temporal/api/workflowservice/v1/service.proto"
        "WorkflowService" workflowServiceServer = .ok (some e) →
      gen.main lib workflowServiceServer operatorServiceServer =
        .ok { started := ["WorkflowService"], stdout := [e], status := 1 }) ∧
    (∀ e, checkAnnotations lib "temporal/api/workflowservice/v1/service.proto"
        "WorkflowService" workflowServiceServer = .ok none →
      checkAnnotations lib "temporal/api/operatorservice/v1/service.proto"
        "OperatorService" operatorServiceServer = .ok (some e) →
      gen.main lib workflowServiceServer operatorServiceServer =
        .ok { started := ["WorkflowService", "OperatorService"], stdout := [e], status := 1 }) ∧
    ((∃ x, gen.main lib workflowServiceServer operatorServiceServer = .ok x ∧
        x.status = 0 ∧ x.stdout = []) ↔
      (checkAnnotations lib "temporal/api/workflowservice/v1/service.proto"
          "WorkflowService" workflowServiceServer = .ok none ∧
        checkAnnotations lib "temporal/api/operatorservice/v1/service.proto"
          "OperatorService" operatorServiceServer = .ok none)) := by
  refine ⟨?_, ?_, ?_⟩
  · intro e h1
    simp [gen.main, h1]
  · intro e h1 h2
    simp [gen.main, h1, h2]
  · cases h1 : checkAnnotations lib "temporal/api/workflowservice/v1/service.proto"
        "WorkflowService" workflowServiceServer with
    | error p => simp [gen.main, h1]
    | ok r1 =>
      cases r1 with
      | some e =>
        simp only [gen.main, h1]
        constructor
        · rintro ⟨x, hx, hstatus, -⟩
          have hx2 := Except.ok.inj hx
          rw [← hx2] at hstatus
          simp at hstatus
        · rintro ⟨h, -⟩
          exact absurd (Except.ok.inj h) (by simp)
      | none =>
        cases h2 : checkAnnotations lib "temporal/api/operatorservice/v1/service.proto"
            "OperatorService" operatorServiceServer with
        | error p => simp [gen.main, h1, h2]
        | ok r2 =>
          cases r2 with
          | some e =>
            simp only [gen.main, h1, h2]
            constructor
            · rintro ⟨x, hx, hstatus, -⟩
              have hx2 := Except.ok.inj hx
              rw [← hx2] at hstatus
              simp at hstatus
            · rintro ⟨-, h⟩
              exact absurd (Except.ok.inj h) (by simp)
          | none =>
            simp only [gen.main, h1, h2]
            constructor
            · intro _
              exact ⟨trivial, trivial⟩
            · intro _
              exact ⟨_, rfl, rfl, rfl⟩

/-- Witness for claim C13: with the sample registry the first pass returns no
error and the second reports the missing annotation of DeleteNamespace, which
is printed with status 1. -/
theorem main_exit_status_witness :
    gen.main temporalLibs sampleServer operatorServer =
      .ok { started := ["WorkflowService", "OperatorService"],
            stdout := ["annotation for DeleteNamespace missing"], status := 1 } :=
  (main_exit_status temporalLibs sampleServer operatorServer).2.1
    "annotation for DeleteNamespace missing" rfl rfl

/-- Claim C14. If loading the descriptor fails with the error e, at whichever
stage (opening the gzip reader on the blob of the file, which is where an
unknown identifier, whose blob is empty, is rejected; reading it whole;
closing it; unmarshalling the bytes read), the checker returns e unchanged and
makes no call to the validator. -/
theorem checkAnnotations_load_error (lib : Libs) (protoFile serviceName : String)
    (serverType : reflect.RType) (e : String)
    (hfail :
      lib.NewReader (lib.FileDescriptor protoFile) = some e ∨
      (lib.NewReader (lib.FileDescriptor protoFile) = none ∧
        (lib.ReadAll (lib.FileDescriptor protoFile)).2 = some e) ∨
      (lib.NewReader (lib.FileDescriptor protoFile) = none ∧
        (lib.ReadAll (lib.FileDescriptor protoFile)).2 = none ∧
        lib.Close (lib.FileDescriptor protoFile) = some e) ∨
      (lib.NewReader (lib.FileDescriptor protoFile) = none ∧
        (lib.ReadAll (lib.FileDescriptor protoFile)).2 = none ∧
        lib.Close (lib.FileDescriptor protoFile) = none ∧
        lib.Unmarshal (lib.ReadAll (lib.FileDescriptor protoFile)).1 = .error e)) :
    (checkAnnotationsCalls lib protoFile serviceName serverType).1 = [] ∧
    checkAnnotations lib protoFile serviceName serverType = .ok (some e) := by
  have hload : loadDescriptor lib protoFile = .error e := by
    rcases hread : lib.ReadAll (lib.FileDescriptor protoFile) with ⟨buf, rerr⟩
    rw [hread] at hfail
    simp only at hfail
    rcases hfail with h | ⟨h1, h2⟩ | ⟨h1, h2, h3⟩ | ⟨h1, h2, h3, h4⟩
    · simp [loadDescriptor, h]
    · simp [loadDescriptor, h1, hread, h2]
    · simp [loadDescriptor, h1, hread, h2, h3]
    · simp [loadDescriptor, h1, hread, h2, h3, h4]
  rw [← checkAnnotationsCalls_snd]
  simp [checkAnnotationsCalls, hload]

/-- Witness for claim C14: a file the registry does not know has an empty
blob, on which the gzip reader fails with EOF. -/
theorem checkAnnotations_load_error_witness :
    (checkAnnotationsCalls sampleLibs "unknown/service.proto" "WorkflowService"
      sampleServer).1 = [] ∧
    checkAnnotations sampleLibs "unknown/service.proto" "WorkflowService" sampleServer =
      .ok (some "EOF") :=
  checkAnnotations_load_error sampleLibs "unknown/service.proto" "WorkflowService"
    sampleServer "EOF" (Or.inl rfl)

/-! ## When the checker passes -/

/-- The inner loop returns no error exactly when every entry passes. -/
theorem methodLoop_ok_none_iff (serverType : reflect.RType)
    (ms : List descriptor.MethodDescriptorProto) :
    methodLoop serverType ms = .ok none ↔ ∀ x ∈ ms, Passes serverType x := by
  constructor
  · intro h
    induction ms with
    | nil =>
      intro x hx
      simp at hx
    | cons y ys ih =>
      cases hname : y.Name with
      | none => simp [methodLoop, deref, hname] at h
      | some n =>
        cases hval : validateAnnotation serverType n (proto.GetExtension y.Options).1 with
        | error p => simp [methodLoop, deref, hname, hval] at h
        | ok r =>
          cases r with
          | some e => simp [methodLoop, deref, hname, hval] at h
          | none =>
            have hy : Passes serverType y := ⟨n, hname, hval⟩
            rw [methodLoop_cons_of_passes serverType y ys hy] at h
            intro x hx
            rcases List.mem_cons.mp hx with hx | hx
            · rw [hx]
              exact hy
            · exact ih h x hx
  · exact methodLoop_of_passes serverType ms

/-- One step of the outer loop on a service carrying another name. -/
theorem serviceLoop_cons_of_other (serverType : reflect.RType) (serviceName sn : String)
    (s : descriptor.ServiceDescriptorProto) (rest : List descriptor.ServiceDescriptorProto)
    (hname : s.Name = some sn) (hne : sn ≠ serviceName) :
    serviceLoop serverType serviceName (s :: rest) =
      serviceLoop serverType serviceName rest := by
  simp [serviceLoop, deref, hname, hne]

/-- The outer loop over named services returns no error exactly when every
entry of every service named serviceName passes. -/
theorem serviceLoop_ok_none_iff (serverType : reflect.RType) (serviceName : String)
    (ss : List descriptor.ServiceDescriptorProto)
    (hnamed : ∀ s ∈ ss, ∃ sn, s.Name = some sn) :
    serviceLoop serverType serviceName ss = .ok none ↔
      ∀ s ∈ ss, s.Name = some serviceName → ∀ x ∈ s.Method, Passes serverType x := by
  induction ss with
  | nil => simp [serviceLoop]
  | cons s rest ih =>
    obtain ⟨sn, hname⟩ := hnamed s (List.mem_cons_self s rest)
    have hrest : ∀ t ∈ rest, ∃ tn, t.Name = some tn :=
      fun t ht => hnamed t (List.mem_cons_of_mem s ht)
    have ih2 := ih hrest
    by_cases heq : sn = serviceName
    · subst heq
      cases hm : methodLoop serverType s.Method with
      | error p =>
        have hnot : ¬ ∀ x ∈ s.Method, Passes serverType x := by
          rw [← methodLoop_ok_none_iff, hm]
          simp
        simp [serviceLoop, deref, hname, hm, hnot]
      | ok r =>
        cases r with
        | some e =>
          have hnot : ¬ ∀ x ∈ s.Method, Passes serverType x := by
            rw [← methodLoop_ok_none_iff, hm]
            simp
          simp [serviceLoop, deref, hname, hm, hnot]
        | none =>
          have hall : ∀ x ∈ s.Method, Passes serverType x :=
            (methodLoop_ok_none_iff serverType s.Method).mp hm
          simp [serviceLoop, deref, hname, hm, ih2]
          intro _
          exact hall
    · rw [serviceLoop_cons_of_other serverType serviceName sn s rest hname heq, ih2]
      have hne : s.Name ≠ some serviceName := by
        rw [hname]
        intro h
        exact heq (Option.some.inj h)
      simp [hne]

/-- The outer loop over named services only depends on the services named
serviceName. -/
theorem serviceLoop_filter (serverType : reflect.RType) (serviceName : String)
    (ss : List descriptor.ServiceDescriptorProto)
    (hnamed : ∀ s ∈ ss, ∃ sn, s.Name = some sn) :
    serviceLoop serverType serviceName ss =
      serviceLoop serverType serviceName (targetServices { Service := ss } serviceName) := by
  induction ss with
  | nil => rfl
  | cons s rest ih =>
    obtain ⟨sn, hname⟩ := hnamed s (List.mem_cons_self s rest)
    have hrest : ∀ t ∈ rest, ∃ tn, t.Name = some tn :=
      fun t ht => hnamed t (List.mem_cons_of_mem s ht)
    have ih2 := ih hrest
    by_cases heq : sn = serviceName
    · have hfilter : targetServices { Service := s :: rest } serviceName =
          s :: targetServices { Service := rest } serviceName := by
        simp [targetServices, List.filter_cons, hname, heq]
      rw [hfilter]
      simp only [serviceLoop, deref, hname, heq]
      rw [ih2]
    · have hfilter : targetServices { Service := s :: rest } serviceName =
          targetServices { Service := rest } serviceName := by
        simp [targetServices, List.filter_cons, hname, heq]
      rw [hfilter, serviceLoop_cons_of_other serverType serviceName sn s rest hname heq]
      exact ih2

/-- Claim C15. For a descriptor that loads and whose services all carry a
name, the checker returns no error exactly when the validator succeeds for
every method of every service whose name equals serviceName (all such
services, not only the first); and the result is the same for any other such
descriptor with the same services of that name: services with another name
have no influence. -/
theorem checkAnnotations_ok_iff (lib : Libs) (protoFile serviceName : String)
    (serverType : reflect.RType) (d : descriptor.FileDescriptorProto)
    (hload : loadDescriptor lib protoFile = .ok d)
    (hnamed : ∀ s ∈ d.Service, ∃ sn, s.Name = some sn) :
    (checkAnnotations lib protoFile serviceName serverType = .ok none ↔
      ∀ s ∈ d.Service, s.Name = some serviceName →
        ∀ x ∈ s.Method, Passes serverType x) ∧
    (∀ (lib2 : Libs) (protoFile2 : String) (d2 : descriptor.FileDescriptorProto),
      loadDescriptor lib2 protoFile2 = .ok d2 →
      (∀ s ∈ d2.Service, ∃ sn, s.Name = some sn) →
      targetServices d2 serviceName = targetServices d serviceName →
      checkAnnotations lib2 protoFile2 serviceName serverType =
        checkAnnotations lib protoFile serviceName serverType) := by
  constructor
  · simp only [checkAnnotations, hload]
    exact serviceLoop_ok_none_iff serverType serviceName d.Service hnamed
  · intro lib2 protoFile2 d2 hload2 hnamed2 hsame
    simp only [checkAnnotations, hload, hload2]
    rw [serviceLoop_filter serverType serviceName d2.Service hnamed2,
      serviceLoop_filter serverType serviceName d.Service hnamed]
    exact congrArg (serviceLoop serverType serviceName) hsame

/-- Witness for claim C15: the workflow service file of the sample registry,
all of whose services carry a name. -/
theorem checkAnnotations_ok_iff_witness :
    checkAnnotations temporalLibs "temporal/api/workflowservice/v1/service.proto"
        "WorkflowService" sampleServer = .ok none ↔
      ∀ s ∈ workflowDescriptor.Service, s.Name = some "WorkflowService" →
        ∀ x ∈ s.Method, Passes sampleServer x :=
  (checkAnnotations_ok_iff temporalLibs "temporal/api/workflowservice/v1/service.proto"
    "WorkflowService" sampleServer workflowDescriptor rfl
    (by
      intro s hs
      simp only [workflowDescriptor, List.mem_singleton] at hs
      exact ⟨"WorkflowService", by rw [hs]⟩)).1

/-! ## Unknown scopes and totality of the validator -/

/-- Claim C16. For a Scope value other than UNSPECIFIED, CLUSTER and NAMESPACE,
with Access not UNSPECIFIED and the name resolved on the server type, the
validator succeeds whatever the request type's fields are: the request type is
inspected (so it has to be there for a method with two or more parameters),
but neither shape is rejected. -/
theorem validateAnnotation_unknown_scope (serverType : reflect.RType) (n : String)
    (ann : annpb.Method) (m : reflect.Method)
    (hmethod : serverType.MethodByName n = some m)
    (hunspecified : ann.Scope ≠ annpb.SCOPE_UNSPECIFIED)
    (hcluster : ann.Scope ≠ annpb.SCOPE_CLUSTER)
    (hnamespace : ann.Scope ≠ annpb.SCOPE_NAMESPACE)
    (haccess : ann.Access ≠ annpb.ACCESS_UNSPECIFIED)
    (hreq : m.Typ.NumIn ≥ 2 →
      ∃ in1 reqType hasNamespace, m.Typ.In 1 = .ok in1 ∧ in1.Elem = .ok reqType ∧
        reqType.FieldByName "Namespace" = .ok hasNamespace) :
    validateAnnotation serverType n (some ann) = .ok none := by
  by_cases hn : m.Typ.NumIn ≥ 2
  · obtain ⟨in1, reqType, hasNamespace, hin, helem, hfield⟩ := hreq hn
    simp [ validateAnnotation, hmethod, hunspecified, hcluster, hnamespace, haccess, hn, hin,
      helem, hfield]
  · simp [ validateAnnotation, hmethod, hunspecified, haccess, hn]

/-- Witness for claim C16: scope number 7 on DescribeCluster, whose request
type has a Namespace field. -/
theorem validateAnnotation_unknown_scope_witness :
    validateAnnotation sampleServer "DescribeCluster" (some ⟨7, 1⟩) = .ok none :=
  validateAnnotation_unknown_scope sampleServer "DescribeCluster" ⟨7, 1⟩
    ⟨"DescribeCluster", ⟨[contextContext, requestWithNamespace]⟩⟩ rfl
    (by decide) (by decide) (by decide) (by decide)
    (fun _ => ⟨requestWithNamespace, .Struct ["Namespace", "Identity"], true, rfl, rfl, rfl⟩)

/-- A well-shaped parameter list with two or more parameters has a pointer to
a struct in second position. -/
theorem wellShaped_second (ins : List reflect.RType) (hshape : wellShaped ins = true)
    (hlen : ins.length ≥ 2) :
    ∃ fields, ins.get? 1 = some (.Pointer (.Struct fields)) := by
  match ins, hshape, hlen with
  | [], _, hlen => simp at hlen
  | [_], _, hlen => simp at hlen
  | _ :: .Pointer (.Struct fields) :: _, _, _ => exact ⟨fields, rfl⟩
  | _ :: .Pointer (.Array _) :: _, h, _ => simp [wellShaped] at h
  | _ :: .Pointer (.Chan _) :: _, h, _ => simp [wellShaped] at h
  | _ :: .Pointer (.Map _) :: _, h, _ => simp [wellShaped] at h
  | _ :: .Pointer (.Pointer _) :: _, h, _ => simp [wellShaped] at h
  | _ :: .Pointer (.Slice _) :: _, h, _ => simp [wellShaped] at h
  | _ :: .Pointer (.Interface _) :: _, h, _ => simp [wellShaped] at h
  | _ :: .Pointer (.Other _) :: _, h, _ => simp [wellShaped] at h
  | _ :: .Array _ :: _, h, _ => simp [wellShaped] at h
  | _ :: .Chan _ :: _, h, _ => simp [wellShaped] at h
  | _ :: .Map _ :: _, h, _ => simp [wellShaped] at h
  | _ :: .Slice _ :: _, h, _ => simp [wellShaped] at h
  | _ :: .Struct _ :: _, h, _ => simp [wellShaped] at h
  | _ :: .Interface _ :: _, h, _ => simp [wellShaped] at h
  | _ :: .Other _ :: _, h, _ => simp [wellShaped] at h

/-- A method resolved on a well-formed server type has a well-shaped
parameter list. -/
theorem wellShaped_of_MethodByName (serverType : reflect.RType) (n : String)
    (m : reflect.Method) (hwf : unaryWellFormed serverType = true)
    (hmethod : serverType.MethodByName n = some m) :
    wellShaped m.Typ.ins = true := by
  cases serverType with
  | Interface methods =>
    simp only [reflect.RType.MethodByName] at hmethod
    cases hfind : methods.find? (fun p => p.1 == n) with
    | none => simp [hfind] at hmethod
    | some p =>
      rw [hfind] at hmethod
      have hm : m = { Name := p.1, Typ := { ins := p.2 } } := (Option.some.inj hmethod).symm
      have hmem : p ∈ methods := List.mem_of_find?_eq_some hfind
      simp only [unaryWellFormed, List.all_eq_true] at hwf
      rw [hm]
      exact hwf p hmem
  | Array _ => simp [reflect.RType.MethodByName] at hmethod
  | Chan _ => simp [reflect.RType.MethodByName] at hmethod
  | Map _ => simp [reflect.RType.MethodByName] at hmethod
  | Pointer _ => simp [reflect.RType.MethodByName] at hmethod
  | Slice _ => simp [reflect.RType.MethodByName] at hmethod
  | Struct _ => simp [reflect.RType.MethodByName] at hmethod
  | Other _ => simp [reflect.RType.MethodByName] at hmethod

/-- Claim C17. The validator is total (it returns nil or an error, and does
not reach the panic of Elem or FieldByName) when every method of the server
type with two or more parameters has a pointer to a struct as its second
parameter.  And whenever one of rules 1-4 fails (annotation absent, Scope
UNSPECIFIED, Access UNSPECIFIED, name not resolved) it returns an error for
every server type, whatever its parameter types are. -/
theorem validateAnnotation_total (serverType : reflect.RType) (n : String)
    (ann : Option annpb.Method) :
    (unaryWellFormed serverType = true → ∃ r, validateAnnotation serverType n ann = .ok r) ∧
    ((ann = none ∨
        (∃ a, ann = some a ∧
          (a.Scope = annpb.SCOPE_UNSPECIFIED ∨ a.Access = annpb.ACCESS_UNSPECIFIED)) ∨
        serverType.MethodByName n = none) →
      ∃ e, validateAnnotation serverType n ann = .ok (some e)) := by
  have hscopeErr : ∀ a : annpb.Method, a.Scope = annpb.SCOPE_UNSPECIFIED →
      validateAnnotation serverType n (some a) =
        .ok (some ("scope annotation for " ++ n ++ " missing")) := by
    intro a hs
    simp [ validateAnnotation, hs]
  have haccessErr : ∀ a : annpb.Method, a.Scope ≠ annpb.SCOPE_UNSPECIFIED →
      a.Access = annpb.ACCESS_UNSPECIFIED →
      validateAnnotation serverType n (some a) =
        .ok (some ("access annotation for " ++ n ++ " missing")) := by
    intro a hs ha
    simp [ validateAnnotation, hs, ha]
  have hlookupErr : ∀ a : annpb.Method, a.Scope ≠ annpb.SCOPE_UNSPECIFIED →
      a.Access ≠ annpb.ACCESS_UNSPECIFIED → serverType.MethodByName n = none →
      validateAnnotation serverType n (some a) =
        .ok (some ("can't find method " ++ n ++ " in server type")) := by
    intro a hs ha hm
    simp [ validateAnnotation, hs, ha, hm]
  constructor
  · intro hwf
    cases ann with
    | none => exact ⟨_, rfl⟩
    | some a =>
      by_cases hs : a.Scope = annpb.SCOPE_UNSPECIFIED
      · exact ⟨_, hscopeErr a hs⟩
      by_cases ha : a.Access = annpb.ACCESS_UNSPECIFIED
      · exact ⟨_, haccessErr a hs ha⟩
      cases hm : serverType.MethodByName n with
      | none => exact ⟨_, hlookupErr a hs ha hm⟩
      | some m =>
        by_cases hn : m.Typ.NumIn ≥ 2
        · have hshape := wellShaped_of_MethodByName serverType n m hwf hm
          obtain ⟨fields, hget⟩ := wellShaped_second m.Typ.ins hshape hn
          have hin : m.Typ.In 1 = .ok (.Pointer (.Struct fields)) := by
            simp only [reflect.FuncType.In, hget]
          have hrun : validateAnnotation serverType n (some a) =
              (if a.Scope = annpb.SCOPE_CLUSTER ∧ fields.contains "Namespace" = true then
                .ok (some ("found Namespace field in request for SCOPE_CLUSTER method " ++ n))
              else if a.Scope = annpb.SCOPE_NAMESPACE ∧ fields.contains "Namespace" = false then
                .ok (some ("didn't find Namespace field in request for SCOPE_NAMESPACE method "
                  ++ n))
              else .ok none) := by
            simp only [ validateAnnotation, hs, ha, hm, hn, hin, reflect.RType.Elem,
              reflect.RType.FieldByName, if_false, if_true]
          rw [hrun]
          split
          · exact ⟨_, rfl⟩
          · split
            · exact ⟨_, rfl⟩
            · exact ⟨_, rfl⟩
        · refine ⟨none, ?_⟩
          simp [ validateAnnotation, hs, ha, hm, hn]
  · intro h
    cases ann with
    | none => exact ⟨_, rfl⟩
    | some a =>
      by_cases hs : a.Scope = annpb.SCOPE_UNSPECIFIED
      · exact ⟨_, hscopeErr a hs⟩
      by_cases ha : a.Access = annpb.ACCESS_UNSPECIFIED
      · exact ⟨_, haccessErr a hs ha⟩
      rcases h with h | ⟨b, hb, hb2⟩ | h
      · simp at h
      · have hab : a = b := Option.some.inj hb
        subst hab
        rcases hb2 with hb2 | hb2
        · exact absurd hb2 hs
        · exact absurd hb2 ha
      · exact ⟨_, hlookupErr a hs ha h⟩

/-- Witness for claim C17: the sample server meets the precondition, so the
validator returns on DescribeCluster. -/
theorem validateAnnotation_total_witness :
    unaryWellFormed sampleServer = true ∧
    ∃ r, validateAnnotation sampleServer "DescribeCluster" (some ⟨annpb.SCOPE_CLUSTER, 1⟩) =
      .ok r :=
  ⟨rfl, (validateAnnotation_total sampleServer "DescribeCluster"
    (some ⟨annpb.SCOPE_CLUSTER, 1⟩)).1 rfl⟩

/-- The precondition is not idle: on a server-streaming method, whose second
parameter is the stream interface, the validator panics in Elem once rules 1-4
have passed. -/
theorem validateAnnotation_panics_on_stream_parameter :
    unaryWellFormed serverStreamingServer = false ∧
    validateAnnotation serverStreamingServer "Subscribe" (some ⟨annpb.SCOPE_NAMESPACE, 1⟩) =
      .error Panic.ElemOfInvalidType :=
  ⟨rfl, rfl⟩
